import Mathlib

/-!
Shallow embedding of the Ledger Store of the Bookkeeping application
(`src/main.py`): the domain model (`RecordType`, `PaymentMethod`, `Category`,
`Record`), the SQLite-backed `RecordManager` operations, and the timestamp
formatting helpers.

Modelling conventions:
  * The SQLite database file is modelled as a `DB` value: the `records` and
    `categories` tables as lists of rows in insertion order, plus the
    AUTOINCREMENT counter for `records.id` (a fresh database starts at 1).
  * Python `float` amounts are modelled as exact rationals (`Rat`); the
    claims under study are about the aggregation logic, not about rounding.
  * `datetime` values are modelled at second precision (microsecond = 0),
    which is what `datetime.isoformat` renders as the 19-character
    `YYYY-MM-DDTHH:MM:SS` form parsed back by `datetime.fromisoformat`.
  * Each store method wraps its body in `try/except`; the possibility of an
    internal exception (I/O failure, corrupt row, ...) is modelled by a
    `fail : Bool` argument: `fail = true` selects the `except` branch, whose
    returned sentinel value is transcribed from the source.
  * `TEXT` comparison in SQLite uses the BINARY collation (memcmp over UTF-8
    bytes), which on UTF-8 coincides with lexicographic order on code points;
    `strLe` below implements exactly that order.
-/

/-- `class RecordType(Enum)` from `src/main.py` lines 9-11. -/
inductive RecordType where
  | income
  | expense
deriving DecidableEq

/-- The `value` of each `RecordType` member (its display label). -/
def RecordType.value : RecordType → String
  | .income => "收入"
  | .expense => "支出"

/-- `RecordType(s)`: Python `Enum` lookup by value; raises `ValueError`
(modelled as `none`) when `s` is not one of the fixed labels. -/
def RecordType.ofValue (s : String) : Option RecordType :=
  if s = "收入" then some .income
  else if s = "支出" then some .expense
  else none

/-- `class PaymentMethod(Enum)` from `src/main.py` lines 14-18. -/
inductive PaymentMethod where
  | cash
  | wechat
  | alipay
  | bankCard
deriving DecidableEq

/-- The `value` of each `PaymentMethod` member (its display label). -/
def PaymentMethod.value : PaymentMethod → String
  | .cash => "现金"
  | .wechat => "微信"
  | .alipay => "支付宝"
  | .bankCard => "银行卡"

/-- `PaymentMethod(s)`: Python `Enum` lookup by value; `none` models the
`ValueError` raised on a label outside the fixed set. -/
def PaymentMethod.ofValue (s : String) : Option PaymentMethod :=
  if s = "现金" then some .cash
  else if s = "微信" then some .wechat
  else if s = "支付宝" then some .alipay
  else if s = "银行卡" then some .bankCard
  else none

/-- A `datetime.datetime` value at second precision (microsecond = 0). -/
structure Datetime where
  year : Nat
  month : Nat
  day : Nat
  hour : Nat
  minute : Nat
  second : Nat
deriving DecidableEq

/-- Gregorian leap-year rule used by `datetime`. -/
def isLeapYear (y : Nat) : Bool :=
  (y % 4 = 0 && y % 100 ≠ 0) || y % 400 = 0

/-- Number of days in month `m` of year `y` (as in `calendar.monthrange`). -/
def daysInMonth (y m : Nat) : Nat :=
  if m = 2 then (if isLeapYear y then 29 else 28)
  else if m = 4 ∨ m = 6 ∨ m = 9 ∨ m = 11 then 30
  else 31

/-- The validity checks the `datetime` constructor enforces
(`MINYEAR = 1`, `MAXYEAR = 9999`, month/day/time ranges). -/
def Datetime.validb (d : Datetime) : Bool :=
  1 ≤ d.year && d.year ≤ 9999 &&
  1 ≤ d.month && d.month ≤ 12 &&
  1 ≤ d.day && d.day ≤ daysInMonth d.year d.month &&
  d.hour ≤ 23 && d.minute ≤ 59 && d.second ≤ 59

/-- The ASCII digit character for `n < 10`. -/
def digitChar (n : Nat) : Char := Char.ofNat (48 + n)

/-- Numeric value of an ASCII digit character. -/
def charVal (c : Char) : Nat := c.toNat - 48

/-- Two-digit zero-padded rendering (`%02d`). -/
def pad2 (n : Nat) : List Char := [digitChar (n / 10), digitChar (n % 10)]

/-- Four-digit zero-padded rendering (`%04d`). -/
def pad4 (n : Nat) : List Char :=
  [digitChar (n / 1000), digitChar (n / 100 % 10), digitChar (n / 10 % 10), digitChar (n % 10)]

/-- `datetime.isoformat()` for a microsecond-free value:
`YYYY-MM-DDTHH:MM:SS`. -/
def Datetime.isoformat (d : Datetime) : String :=
  String.mk (pad4 d.year ++ ['-'] ++ pad2 d.month ++ ['-'] ++ pad2 d.day ++
    ['T'] ++ pad2 d.hour ++ [':'] ++ pad2 d.minute ++ [':'] ++ pad2 d.second)

/-- Whether `c` is an ASCII digit. -/
def isDigitChar (c : Char) : Bool := 48 ≤ c.toNat && c.toNat ≤ 57

/-- Parser for the character content of a 19-character
`YYYY-MM-DDTHH:MM:SS` timestamp. -/
def parseIso : List Char → Option Datetime
  | [y1, y2, y3, y4, c1, m1, m2, c2, d1, d2, c3, h1, h2, c4, n1, n2, c5, s1, s2] =>
      if (c1 == '-') && (c2 == '-') && (c3 == 'T') && (c4 == ':') && (c5 == ':') &&
         isDigitChar y1 && isDigitChar y2 && isDigitChar y3 && isDigitChar y4 &&
         isDigitChar m1 && isDigitChar m2 && isDigitChar d1 && isDigitChar d2 &&
         isDigitChar h1 && isDigitChar h2 && isDigitChar n1 && isDigitChar n2 &&
         isDigitChar s1 && isDigitChar s2 then
        let d : Datetime :=
          ⟨1000 * charVal y1 + 100 * charVal y2 + 10 * charVal y3 + charVal y4,
           10 * charVal m1 + charVal m2,
           10 * charVal d1 + charVal d2,
           10 * charVal h1 + charVal h2,
           10 * charVal n1 + charVal n2,
           10 * charVal s1 + charVal s2⟩
        if d.validb then some d else none
      else none
  | _ => none

/-- `datetime.fromisoformat` restricted to the 19-character
`YYYY-MM-DDTHH:MM:SS` shape that `Datetime.isoformat` produces; any other
string is a parse failure (`ValueError`, modelled as `none`), as is a
string whose numeric fields fall outside the `datetime` constructor's
ranges. -/
def fromisoformat (s : String) : Option Datetime := parseIso s.data

/-- `strftime("%H:%M")`. -/
def Datetime.strftimeHM (d : Datetime) : String :=
  String.mk (pad2 d.hour ++ [':'] ++ pad2 d.minute)

/-- `strftime("%m/%d %H:%M")`. -/
def Datetime.strftimeMDHM (d : Datetime) : String :=
  String.mk (pad2 d.month ++ ['/'] ++ pad2 d.day ++ [' '] ++ pad2 d.hour ++ [':'] ++ pad2 d.minute)

/-- `datetime.date()`: the calendar-day component. -/
def Datetime.dateTriple (d : Datetime) : Nat × Nat × Nat := (d.year, d.month, d.day)

/-- `datetime.replace(day=newDay)`: validates the new day against the
month's length and raises `ValueError` (modelled as `none`) when it is out
of range — in particular when `newDay = 0`. -/
def Datetime.replaceDay (d : Datetime) (newDay : Int) : Option Datetime :=
  if 1 ≤ newDay ∧ newDay ≤ (daysInMonth d.year d.month : Int) then
    some { d with day := newDay.toNat }
  else none

/-- `class Category` (`src/main.py` lines 21-26).  The name/icon/color
fields are `Option`-valued because `get_all_records` builds a `Category`
from a LEFT JOIN row, whose joined columns are SQL NULL when the record's
`category_id` has no match. -/
structure Category where
  category_id : Int
  name : Option String
  icon : Option String
  color : Option String
deriving DecidableEq

/-- `class Record` (`src/main.py` lines 29-39). -/
structure Record where
  record_id : Int
  amount : Rat
  record_type : RecordType
  category : Category
  payment_method : PaymentMethod
  note : String
  record_date : Datetime
deriving DecidableEq

/-- `Record.get_formatted_time` (`src/main.py` lines 44-51), with the
wall-clock `datetime.now()` passed explicitly.  The `elif` branch computes
yesterday as `now.replace(day=now.day - 1)`; a `ValueError` escaping from
`replace` is modelled as `none`. -/
def Record.get_formatted_time (r : Record) (now : Datetime) : Option String :=
  if r.record_date.dateTriple = now.dateTriple then
    some ("今天 " ++ r.record_date.strftimeHM)
  else
    match now.replaceDay ((now.day : Int) - 1) with
    | some y =>
        if r.record_date.dateTriple = y.dateTriple then
          some ("昨天 " ++ r.record_date.strftimeHM)
        else
          some r.record_date.strftimeMDHM
    | none => none

/-- A row of the `records` table
(`id, amount, type, category_id, payment_method, note, record_date`). -/
structure RecordRow where
  id : Int
  amount : Rat
  type : String
  categoryId : Int
  paymentMethod : String
  note : String
  recordDate : String
deriving DecidableEq

/-- A row of the `categories` table (`id, name, icon, color`). -/
structure CategoryRow where
  id : Int
  name : String
  icon : String
  color : String
deriving DecidableEq

/-- The state of the database file: both tables plus the AUTOINCREMENT
counter for `records.id`. -/
structure DB where
  records : List RecordRow
  categories : List CategoryRow
  nextId : Int
deriving DecidableEq

/-- A freshly created database file: empty tables, ids start at 1. -/
def emptyDB : DB := ⟨[], [], 1⟩

/-- Lexicographic `≤` on code points — SQLite's BINARY collation (memcmp
over UTF-8 bytes agrees with code-point order on UTF-8 text). -/
def charsLe : List Char → List Char → Bool
  | [], _ => true
  | _ :: _, [] => false
  | a :: as, b :: bs =>
      if a.toNat < b.toNat then true
      else if b.toNat < a.toNat then false
      else charsLe as bs

/-- SQLite TEXT `≤` (BINARY collation). -/
def strLe (a b : String) : Bool := charsLe a.data b.data

/-- SQLite TEXT `<` (BINARY collation). -/
def strLt (a b : String) : Bool := strLe a b && !(a == b)

/-- A `records` row whose `type` and `payment_method` cells carry labels of
the closed enumerations — the data-model invariant of §3 of the spec, and
an invariant of every state reachable through `add_record`. -/
def RowOk (row : RecordRow) : Prop :=
  (RecordType.ofValue row.type).isSome = true ∧
  (PaymentMethod.ofValue row.paymentMethod).isSome = true

/-- Well-formed database state: the id counter has its AUTOINCREMENT lower
bound and every stored row satisfies `RowOk`. -/
def WF (db : DB) : Prop :=
  1 ≤ db.nextId ∧ ∀ row ∈ db.records, RowOk row

instance (row : RecordRow) : Decidable (RowOk row) := by
  unfold RowOk
  infer_instance

instance (db : DB) : Decidable (WF db) := by
  unfold WF
  infer_instance

/-- The §3 timestamp invariant: every stored `record_date` cell is the
`isoformat` rendering of a (valid) `datetime` — "stored in a sortable,
unambiguous textual form".  States reached through `add_record` satisfy
this by construction. -/
def DatesWF (db : DB) : Prop :=
  ∀ row ∈ db.records, ∃ d : Datetime, d.validb = true ∧ row.recordDate = d.isoformat

/-- The ten seeded categories of `_insert_default_data`
(`src/main.py` lines 93-104). -/
def defaultCategories : List CategoryRow :=
  [⟨1, "美食饮品", "🍔", "#FF6B6B"⟩,
   ⟨2, "购物消费", "🎒", "#4ECDC4"⟩,
   ⟨3, "交通出行", "🚗", "#45B7D1"⟩,
   ⟨4, "娱乐休闲", "🎮", "#96CEB4"⟩,
   ⟨5, "数码家电", "📱", "#F7DC6F"⟩,
   ⟨6, "医疗健康", "🏥", "#BB8FCE"⟩,
   ⟨7, "教育培训", "📚", "#F1948A"⟩,
   ⟨8, "工资收入", "💰", "#52BE80"⟩,
   ⟨9, "投资理财", "📈", "#5499C7"⟩,
   ⟨10, "其他", "📦", "#95A5A6"⟩]

/-- One `INSERT OR IGNORE INTO categories` statement: a row whose `id` is
already present is left untouched, otherwise the row is appended. -/
def insertOrIgnoreCategory (db : DB) (c : CategoryRow) : DB :=
  if db.categories.any (fun c0 => c0.id == c.id) then db
  else { db with categories := db.categories ++ [c] }

/-- `RecordManager._insert_default_data`: `executemany` of the
insert-or-ignore statement over the ten seeded rows, in order. -/
def RecordManager._insert_default_data (db : DB) : DB :=
  defaultCategories.foldl insertOrIgnoreCategory db

/-- `RecordManager._init_database` (`src/main.py` lines 59-90).  The two
`CREATE TABLE IF NOT EXISTS` statements are no-ops on the `DB` model (the
tables are structurally always present); the seeding step is
`_insert_default_data`.  `fail = true` selects the `except` branch, which
only logs: the state is unchanged. -/
def RecordManager._init_database (db : DB) (fail : Bool) : DB :=
  if fail then db else RecordManager._insert_default_data db

/-- `RecordManager.add_record` (`src/main.py` lines 110-132): inserts one
row built from the record's fields (enum labels as text, the timestamp via
`isoformat`), with the store-assigned AUTOINCREMENT id, and returns `true`;
the `except` branch returns `false` with the state unchanged. -/
def RecordManager.add_record (db : DB) (r : Record) (fail : Bool) : DB × Bool :=
  if fail then (db, false)
  else
    ({ records := db.records ++
         [⟨db.nextId, r.amount, r.record_type.value, r.category.category_id,
           r.payment_method.value, r.note, r.record_date.isoformat⟩],
       categories := db.categories,
       nextId := db.nextId + 1 }, true)

/-- Conversion of one fetched row to a `Record` (`src/main.py` lines
153-164): the LEFT JOIN against `categories` is realised by `find?` (sound
because `categories.id` is a primary key, hence unique); an unparseable
timestamp is coerced to `now`; an unknown `type` or `payment_method` label
raises `ValueError` (`none`), which aborts the enclosing query. -/
def rowToRecord (now : Datetime) (cats : List CategoryRow) (row : RecordRow) : Option Record :=
  let category : Category :=
    match cats.find? (fun c => c.id == row.categoryId) with
    | some c => ⟨row.categoryId, some c.name, some c.icon, some c.color⟩
    | none => ⟨row.categoryId, none, none, none⟩
  let rd : Datetime :=
    match fromisoformat row.recordDate with
    | some d => d
    | none => now
  match RecordType.ofValue row.type, PaymentMethod.ofValue row.paymentMethod with
  | some t, some p => some ⟨row.id, row.amount, t, category, p, row.note, rd⟩
  | _, _ => none

/-- The row loop of the two retrieval queries: rows are converted in order;
the first conversion failure raises out of the loop (the whole call then
lands in its `except` branch). -/
def parseRows (now : Datetime) (cats : List CategoryRow) : List RecordRow → Option (List Record)
  | [] => some []
  | row :: rest =>
      match rowToRecord now cats row with
      | some r =>
          match parseRows now cats rest with
          | some rs => some (r :: rs)
          | none => none
      | none => none

/-- A placeholder record used only to name the value inside an `Option`
already known to be `some`. -/
def defaultRecord : Record :=
  ⟨0, 0, .income, ⟨0, none, none, none⟩, .cash, "", ⟨1, 1, 1, 0, 0, 0⟩⟩

/-- The parsed record of a row whose conversion is known to succeed. -/
def parsedRecord (now : Datetime) (cats : List CategoryRow) (row : RecordRow) : Record :=
  (rowToRecord now cats row).getD defaultRecord

/-- The comparator of `ORDER BY r.record_date DESC` on the TEXT column. -/
def rowDateGe (a b : RecordRow) : Bool := strLe b.recordDate a.recordDate

/-- Insertion step of the stable descending sort: `row` goes in front of
the first element whose date is `≤` its own, i.e. after every strictly
later row and before rows with an equal date that came later in the scan. -/
def insertDateDesc (row : RecordRow) : List RecordRow → List RecordRow
  | [] => [row]
  | r :: rs =>
      if rowDateGe row r then row :: r :: rs
      else r :: insertDateDesc row rs

/-- `ORDER BY r.record_date DESC` (a stable sort; SQLite leaves the order
of equal keys unspecified, and any stable order is one admissible
realisation). -/
def sortByDateDesc : List RecordRow → List RecordRow
  | [] => []
  | row :: rest => insertDateDesc row (sortByDateDesc rest)

/-- `RecordManager.get_all_records` (`src/main.py` lines 134-170).
`limit : Option Int` models the `limit: int = None` parameter: the guard
`if limit:` appends a `LIMIT` clause only for a non-`None`, non-zero value,
and SQLite treats a negative `LIMIT` as "no limit".  The `except` branch
returns `[]`. -/
def RecordManager.get_all_records (db : DB) (limit : Option Int) (now : Datetime)
    (fail : Bool) : List Record :=
  if fail then []
  else
    let sorted := sortByDateDesc db.records
    let limited :=
      match limit with
      | some n => if n ≠ 0 then (if 0 < n then sorted.take n.toNat else sorted) else sorted
      | none => sorted
    match parseRows now db.categories limited with
    | some recs => recs
    | none => []

/-- The guard `if record_type and record_type != "全部":` — the type filter
is active only for a non-`None`, non-empty value other than `"全部"`. -/
def typeFilterActive (rt : Option String) : Bool :=
  match rt with
  | some t => !(t == "") && !(t == "全部")
  | none => false

/-- The filter value bound into the query when the filter is active. -/
def rtVal (rt : Option String) : String := rt.getD ""

/-- The WHERE clause shared by the range query and the range summary:
`record_date BETWEEN ? AND ?` (inclusive, TEXT/BINARY comparison against
`start.isoformat()` and `end.isoformat()`) plus the optional
`AND type = ?`. -/
def rangeRows (db : DB) (s e : Datetime) (rt : Option String) : List RecordRow :=
  db.records.filter (fun row =>
    strLe s.isoformat row.recordDate && strLe row.recordDate e.isoformat &&
    (if typeFilterActive rt then row.type == rtVal rt else true))

/-- `RecordManager.get_records_by_date_range` (`src/main.py` lines
172-215): the range/type filter, `ORDER BY record_date DESC`, then the row
loop; the `except` branch returns `[]`. -/
def RecordManager.get_records_by_date_range (db : DB) (s e : Datetime) (rt : Option String)
    (now : Datetime) (fail : Bool) : List Record :=
  if fail then []
  else
    match parseRows now db.categories (sortByDateDesc (rangeRows db s e rt)) with
    | some recs => recs
    | none => []

/-- Python `dict` assignment `m[k] = v` on a string-keyed dict represented
as its insertion-ordered entry list. -/
def dictSet (m : List (String × Rat)) (k : String) (v : Rat) : List (String × Rat) :=
  match m with
  | [] => [(k, v)]
  | (k0, v0) :: rest => if k0 = k then (k0, v) :: rest else (k0, v0) :: dictSet rest k v

/-- Python `m.get(k, dflt)`. -/
def dictGet (m : List (String × Rat)) (k : String) (dflt : Rat) : Rat :=
  match m.find? (fun kv => kv.1 == k) with
  | some kv => kv.2
  | none => dflt

/-- `SUM(amount)` over the rows of one `type` group.  `amount` is a
`NOT NULL` column and a GROUP BY group is nonempty, so the SQL sum is
never NULL and the source's `row[1] or 0.0` guard is the identity here. -/
def typeSum (rows : List RecordRow) (t : String) : Rat :=
  ((rows.filter (fun row => row.type == t)).map (fun row => row.amount)).sum

/-- `SELECT type, SUM(amount) ... GROUP BY type`: one `(type, sum)` pair
per distinct `type` value among `rows`.  SQLite does not specify the order
of the groups; every use below folds them into a dict, whose final content
does not depend on that order because the keys are distinct. -/
def sqlGroupByTypeSum (rows : List RecordRow) : List (String × Rat) :=
  ((rows.map (fun row => row.type)).dedup).map (fun t => (t, typeSum rows t))

/-- The zero-seeded accumulator `{"收入": 0.0, "支出": 0.0}`. -/
def zeroSummary : List (String × Rat) := [("收入", 0), ("支出", 0)]

/-- `RecordManager.get_summary_by_date_range` (`src/main.py` lines
217-253): SQL `SUM ... GROUP BY type` over the range (and optional type)
filter, folded over the zero-seeded dict; when a specific type was
requested the result is narrowed to that single key.  The `except` branch
returns the full zero map. -/
def RecordManager.get_summary_by_date_range (db : DB) (s e : Datetime) (rt : Option String)
    (fail : Bool) : List (String × Rat) :=
  if fail then zeroSummary
  else
    let rows := rangeRows db s e rt
    let result := (sqlGroupByTypeSum rows).foldl (fun m g => dictSet m g.1 g.2) zeroSummary
    if typeFilterActive rt then [(rtVal rt, dictGet result (rtVal rt) 0)] else result

/-- `strftime('%Y-%m', record_date)` applied by SQLite to the stored TEXT
cell: defined on parseable timestamps, NULL (here `none`) otherwise. -/
def monthKeyOf (s : String) : Option String :=
  (fromisoformat s).map (fun d => String.mk (pad4 d.year ++ ['-'] ++ pad2 d.month))

/-- `RecordManager.get_monthly_summary` (`src/main.py` lines 292-313):
rows of the current calendar month (`now.strftime("%Y-%m")`), summed and
grouped by type, folded over the zero-seeded dict.  The `except` branch
returns the zero map. -/
def RecordManager.get_monthly_summary (db : DB) (now : Datetime) (fail : Bool) :
    List (String × Rat) :=
  if fail then zeroSummary
  else
    let current := String.mk (pad4 now.year ++ ['-'] ++ pad2 now.month)
    let rows := db.records.filter (fun row => monthKeyOf row.recordDate == some current)
    (sqlGroupByTypeSum rows).foldl (fun m g => dictSet m g.1 g.2) zeroSummary

/-- The joined category name of a record row (`c.name`, SQL NULL when the
LEFT JOIN finds no category). -/
def catKeyOf (cats : List CategoryRow) (row : RecordRow) : Option String :=
  (cats.find? (fun c => c.id == row.categoryId)).map (fun c => c.name)

/-- `SELECT c.name, r.type, SUM(r.amount) ... GROUP BY c.name, r.type`:
one entry per distinct (joined name, type) pair. -/
def catGroups (cats : List CategoryRow) (rows : List RecordRow) :
    List ((Option String × String) × Rat) :=
  ((rows.map (fun row => (catKeyOf cats row, row.type))).dedup).map
    (fun k => (k,
      ((rows.filter (fun row => catKeyOf cats row == k.1 && row.type == k.2)).map
        (fun row => row.amount)).sum))

/-- The loop body of `get_category_summary`: seed an absent outer key with
the zero map, then set the type entry. -/
def catDictStep (m : List (Option String × List (String × Rat))) (k : Option String)
    (t : String) (v : Rat) : List (Option String × List (String × Rat)) :=
  match m with
  | [] => [(k, dictSet zeroSummary t v)]
  | (k0, inner) :: rest =>
      if k0 = k then (k0, dictSet inner t v) :: rest
      else (k0, inner) :: catDictStep rest k t v

/-- `RecordManager.get_category_summary` (`src/main.py` lines 255-290):
grouped sums over (joined category name, type) folded into a nested dict
starting from `{}`.  The `except` branch returns the **empty** dict. -/
def RecordManager.get_category_summary (db : DB) (s e : Datetime) (rt : Option String)
    (fail : Bool) : List (Option String × List (String × Rat)) :=
  if fail then []
  else
    (catGroups db.categories (rangeRows db s e rt)).foldl
      (fun m g => catDictStep m g.1.1 g.1.2 g.2) []

/-- Modelled from the spec: the row-level cross-check aggregation of §8 —
"the sum over `getRecordsByRange(S, E, "All")` grouped by type".  This is
the specification-side definition a refinement claim compares the SQL-side
`get_summary_by_date_range` against. -/
def rowLevelSummary (recs : List Record) : List (String × Rat) :=
  [("收入", ((recs.filter (fun r => r.record_type == RecordType.income)).map
      (fun r => r.amount)).sum),
   ("支出", ((recs.filter (fun r => r.record_type == RecordType.expense)).map
      (fun r => r.amount)).sum)]

/-! ## Character and timestamp lemmas -/

theorem digitChar_isDigitChar {n : Nat} (h : n < 10) : isDigitChar (digitChar n) = true := by
  interval_cases n <;> decide

theorem charVal_digitChar {n : Nat} (h : n < 10) : charVal (digitChar n) = n := by
  interval_cases n <;> decide

theorem isDigitChar_bounds {c : Char} (h : isDigitChar c = true) :
    48 ≤ c.toNat ∧ c.toNat ≤ 57 := by
  simpa [isDigitChar, Bool.and_eq_true, decide_eq_true_eq] using h

theorem digitChar_charVal {c : Char} (h : isDigitChar c = true) :
    digitChar (charVal c) = c := by
  obtain ⟨h1, _⟩ := isDigitChar_bounds h
  have : 48 + charVal c = c.toNat := by
    unfold charVal
    omega
  rw [digitChar, this, Char.ofNat_toNat]

theorem iso_data (d : Datetime) :
    (Datetime.isoformat d).data =
      [digitChar (d.year / 1000), digitChar (d.year / 100 % 10),
       digitChar (d.year / 10 % 10), digitChar (d.year % 10), '-',
       digitChar (d.month / 10), digitChar (d.month % 10), '-',
       digitChar (d.day / 10), digitChar (d.day % 10), 'T',
       digitChar (d.hour / 10), digitChar (d.hour % 10), ':',
       digitChar (d.minute / 10), digitChar (d.minute % 10), ':',
       digitChar (d.second / 10), digitChar (d.second % 10)] := rfl

theorem validb_bounds {d : Datetime} (h : d.validb = true) :
    1 ≤ d.year ∧ d.year ≤ 9999 ∧ 1 ≤ d.month ∧ d.month ≤ 12 ∧
    1 ≤ d.day ∧ d.day ≤ daysInMonth d.year d.month ∧
    d.hour ≤ 23 ∧ d.minute ≤ 59 ∧ d.second ≤ 59 := by
  simp only [Datetime.validb, Bool.and_eq_true, decide_eq_true_eq] at h
  tauto

/-- `fromisoformat` inverts `isoformat` on valid datetimes — the storage
roundtrip for timestamps written by `add_record`. -/
theorem fromisoformat_isoformat {d : Datetime} (hv : d.validb = true) :
    fromisoformat d.isoformat = some d := by
  obtain ⟨hy1, hy2, hm1, hm2, hd1, hd2, hh, hmi, hs⟩ := validb_bounds hv
  have hmonth : d.month ≤ 99 := by omega
  have hday : d.day ≤ daysInMonth d.year d.month := hd2
  have hday99 : d.day ≤ 99 := by
    have : daysInMonth d.year d.month ≤ 31 := by
      unfold daysInMonth
      split
      · split <;> omega
      · split <;> omega
    omega
  rw [fromisoformat, iso_data, parseIso]
  have e0 : isDigitChar (digitChar (d.year / 1000)) = true :=
    digitChar_isDigitChar (by omega)
  have e1 : isDigitChar (digitChar (d.year / 100 % 10)) = true :=
    digitChar_isDigitChar (by omega)
  have e2 : isDigitChar (digitChar (d.year / 10 % 10)) = true :=
    digitChar_isDigitChar (by omega)
  have e3 : isDigitChar (digitChar (d.year % 10)) = true :=
    digitChar_isDigitChar (by omega)
  have e4 : isDigitChar (digitChar (d.month / 10)) = true :=
    digitChar_isDigitChar (by omega)
  have e5 : isDigitChar (digitChar (d.month % 10)) = true :=
    digitChar_isDigitChar (by omega)
  have e6 : isDigitChar (digitChar (d.day / 10)) = true :=
    digitChar_isDigitChar (by omega)
  have e7 : isDigitChar (digitChar (d.day % 10)) = true :=
    digitChar_isDigitChar (by omega)
  have e8 : isDigitChar (digitChar (d.hour / 10)) = true :=
    digitChar_isDigitChar (by omega)
  have e9 : isDigitChar (digitChar (d.hour % 10)) = true :=
    digitChar_isDigitChar (by omega)
  have e10 : isDigitChar (digitChar (d.minute / 10)) = true :=
    digitChar_isDigitChar (by omega)
  have e11 : isDigitChar (digitChar (d.minute % 10)) = true :=
    digitChar_isDigitChar (by omega)
  have e12 : isDigitChar (digitChar (d.second / 10)) = true :=
    digitChar_isDigitChar (by omega)
  have e13 : isDigitChar (digitChar (d.second % 10)) = true :=
    digitChar_isDigitChar (by omega)
  have vy : 1000 * charVal (digitChar (d.year / 1000)) +
      100 * charVal (digitChar (d.year / 100 % 10)) +
      10 * charVal (digitChar (d.year / 10 % 10)) + charVal (digitChar (d.year % 10)) = d.year := by
    rw [charVal_digitChar (by omega), charVal_digitChar (by omega),
      charVal_digitChar (by omega), charVal_digitChar (by omega)]
    omega
  have vmo : 10 * charVal (digitChar (d.month / 10)) + charVal (digitChar (d.month % 10)) = d.month := by
    rw [charVal_digitChar (by omega), charVal_digitChar (by omega)]
    omega
  have vdy : 10 * charVal (digitChar (d.day / 10)) + charVal (digitChar (d.day % 10)) = d.day := by
    rw [charVal_digitChar (by omega), charVal_digitChar (by omega)]
    omega
  have vh : 10 * charVal (digitChar (d.hour / 10)) + charVal (digitChar (d.hour % 10)) = d.hour := by
    rw [charVal_digitChar (by omega), charVal_digitChar (by omega)]
    omega
  have vmi : 10 * charVal (digitChar (d.minute / 10)) + charVal (digitChar (d.minute % 10)) = d.minute := by
    rw [charVal_digitChar (by omega), charVal_digitChar (by omega)]
    omega
  have vs : 10 * charVal (digitChar (d.second / 10)) + charVal (digitChar (d.second % 10)) = d.second := by
    rw [charVal_digitChar (by omega), charVal_digitChar (by omega)]
    omega
  simp only [e0, e1, e2, e3, e4, e5, e6, e7, e8, e9, e10, e11, e12, e13,
    vy, vmo, vdy, vh, vmi, vs, Bool.and_true, Bool.true_and, beq_self_eq_true]
  have : (⟨d.year, d.month, d.day, d.hour, d.minute, d.second⟩ : Datetime) = d := rfl
  simp only [if_true, this, if_pos hv]

/-! ## Enumeration lemmas -/

theorem recordType_ofValue_value (t : RecordType) : RecordType.ofValue t.value = some t := by
  cases t <;> rfl

theorem paymentMethod_ofValue_value (p : PaymentMethod) :
    PaymentMethod.ofValue p.value = some p := by
  cases p <;> rfl

theorem RecordType.ofValue_mem {s : String} (h : (RecordType.ofValue s).isSome = true) :
    s = "收入" ∨ s = "支出" := by
  unfold RecordType.ofValue at h
  split at h
  · left
    assumption
  · split at h
    · right
      assumption
    · simp at h

theorem recordType_value_of_ofValue {s : String} {t : RecordType}
    (h : RecordType.ofValue s = some t) : t.value = s := by
  unfold RecordType.ofValue at h
  split at h
  · cases h
    subst_eqs
    rfl
  · split at h
    · cases h
      subst_eqs
      rfl
    · cases h

theorem paymentMethod_value_of_ofValue {s : String} {p : PaymentMethod}
    (h : PaymentMethod.ofValue s = some p) : p.value = s := by
  unfold PaymentMethod.ofValue at h
  split at h
  · cases h
    subst_eqs
    rfl
  · split at h
    · cases h
      subst_eqs
      rfl
    · split at h
      · cases h
        subst_eqs
        rfl
      · split at h
        · cases h
          subst_eqs
          rfl
        · cases h

theorem RecordType.ofValue_income_iff {s : String} :
    RecordType.ofValue s = some RecordType.income ↔ s = "收入" := by
  constructor
  · intro h
    have := recordType_value_of_ofValue h
    simpa [RecordType.value] using this.symm
  · intro h
    subst h
    rfl

theorem RecordType.ofValue_expense_iff {s : String} :
    RecordType.ofValue s = some RecordType.expense ↔ s = "支出" := by
  constructor
  · intro h
    have := recordType_value_of_ofValue h
    simpa [RecordType.value] using this.symm
  · intro h
    subst h
    rfl

/-! ## String-order lemmas -/

theorem charsLe_refl : ∀ as, charsLe as as = true := by
  intro as
  induction as with
  | nil => rfl
  | cons a as ih =>
      simp only [charsLe]
      rw [if_neg (by omega), if_neg (by omega)]
      exact ih

theorem charsLe_total : ∀ as bs, charsLe as bs = true ∨ charsLe bs as = true := by
  intro as
  induction as with
  | nil => intro bs; left; rfl
  | cons a as ih =>
      intro bs
      cases bs with
      | nil => right; rfl
      | cons b bs =>
          simp only [charsLe]
          rcases Nat.lt_trichotomy a.toNat b.toNat with h | h | h
          · left
            rw [if_pos h]
          · rw [if_neg (by omega), if_neg (by omega), if_neg (by omega), if_neg (by omega)]
            exact ih bs
          · right
            rw [if_pos h]

theorem charsLe_trans : ∀ as bs cs, charsLe as bs = true → charsLe bs cs = true →
    charsLe as cs = true := by
  intro as
  induction as with
  | nil => intro bs cs _ _; rfl
  | cons a as ih =>
      intro bs cs h1 h2
      cases bs with
      | nil => simp [charsLe] at h1
      | cons b bs =>
          cases cs with
          | nil => simp [charsLe] at h2
          | cons c cs =>
              simp only [charsLe] at h1 h2 ⊢
              rcases Nat.lt_trichotomy a.toNat b.toNat with hab | hab | hab
              · rcases Nat.lt_trichotomy b.toNat c.toNat with hbc | hbc | hbc
                · rw [if_pos (by omega)]
                · rw [if_pos (by omega)]
                · rw [if_neg (by omega), if_pos (by omega)] at h2
                  simp at h2
              · rcases Nat.lt_trichotomy b.toNat c.toNat with hbc | hbc | hbc
                · rw [if_pos (by omega)]
                · rw [if_neg (by omega), if_neg (by omega)] at h1 h2 ⊢
                  exact ih bs cs h1 h2
                · rw [if_neg (by omega), if_pos (by omega)] at h2
                  simp at h2
              · rw [if_neg (by omega), if_pos (by omega)] at h1
                simp at h1

theorem strLe_refl (a : String) : strLe a a = true := charsLe_refl a.data

theorem strLe_total (a b : String) : strLe a b = true ∨ strLe b a = true :=
  charsLe_total a.data b.data

theorem strLe_trans {a b c : String} (h1 : strLe a b = true) (h2 : strLe b c = true) :
    strLe a c = true :=
  charsLe_trans a.data b.data c.data h1 h2

/-! ## Sorting lemmas -/

theorem insertDateDesc_perm (row : RecordRow) (l : List RecordRow) :
    (insertDateDesc row l).Perm (row :: l) := by
  induction l with
  | nil => exact List.Perm.refl _
  | cons r rs ih =>
      simp only [insertDateDesc]
      split
      · exact List.Perm.refl _
      · exact (ih.cons r).trans (List.Perm.swap row r rs)

theorem sortByDateDesc_perm (l : List RecordRow) : (sortByDateDesc l).Perm l := by
  induction l with
  | nil => exact List.Perm.refl _
  | cons row rest ih =>
      exact (insertDateDesc_perm row (sortByDateDesc rest)).trans (ih.cons row)

theorem mem_sortByDateDesc {row : RecordRow} {l : List RecordRow} :
    row ∈ sortByDateDesc l ↔ row ∈ l :=
  (sortByDateDesc_perm l).mem_iff

theorem insertDateDesc_pairwise {row : RecordRow} {l : List RecordRow}
    (h : List.Pairwise (fun a b => rowDateGe a b = true) l) :
    List.Pairwise (fun a b => rowDateGe a b = true) (insertDateDesc row l) := by
  induction l with
  | nil => simp [insertDateDesc]
  | cons r rs ih =>
      rw [List.pairwise_cons] at h
      obtain ⟨hr, hrs⟩ := h
      simp only [insertDateDesc]
      split
      · rename_i hge
        rw [List.pairwise_cons]
        refine ⟨?_, List.pairwise_cons.mpr ⟨hr, hrs⟩⟩
        intro b hb
        rcases List.mem_cons.mp hb with hb | hb
        · subst hb
          exact hge
        · exact strLe_trans (hr b hb) hge
      · rename_i hnge
        have hge2 : rowDateGe r row = true := by
          rcases strLe_total row.recordDate r.recordDate with h1 | h1
          · exact h1
          · exact absurd h1 hnge
        rw [List.pairwise_cons]
        refine ⟨?_, ih hrs⟩
        intro b hb
        rcases List.mem_cons.mp ((insertDateDesc_perm row rs).mem_iff.mp hb) with hb | hb
        · subst hb
          exact hge2
        · exact hr b hb

theorem sortByDateDesc_pairwise (l : List RecordRow) :
    List.Pairwise (fun a b => rowDateGe a b = true) (sortByDateDesc l) := by
  induction l with
  | nil => simp [sortByDateDesc]
  | cons row rest ih => exact insertDateDesc_pairwise ih

/-! ## Row-conversion lemmas -/

theorem rowToRecord_isSome (now : Datetime) (cats : List CategoryRow) {row : RecordRow}
    (h : RowOk row) : (rowToRecord now cats row).isSome = true := by
  obtain ⟨h1, h2⟩ := h
  rw [Option.isSome_iff_exists] at h1 h2
  obtain ⟨t, ht⟩ := h1
  obtain ⟨p, hp⟩ := h2
  simp [rowToRecord, ht, hp]

theorem parsedRecord_spec (now : Datetime) (cats : List CategoryRow) {row : RecordRow}
    (h : RowOk row) :
    rowToRecord now cats row = some (parsedRecord now cats row) := by
  have h2 := rowToRecord_isSome now cats h
  rw [Option.isSome_iff_exists] at h2
  obtain ⟨r, hr⟩ := h2
  rw [parsedRecord, hr]
  rfl

theorem parsedRecord_fields (now : Datetime) (cats : List CategoryRow) {row : RecordRow}
    (h : RowOk row) :
    (parsedRecord now cats row).record_id = row.id ∧
    (parsedRecord now cats row).amount = row.amount ∧
    (parsedRecord now cats row).note = row.note ∧
    (parsedRecord now cats row).category.category_id = row.categoryId ∧
    RecordType.ofValue row.type = some (parsedRecord now cats row).record_type ∧
    PaymentMethod.ofValue row.paymentMethod = some (parsedRecord now cats row).payment_method ∧
    (parsedRecord now cats row).record_date =
      (match fromisoformat row.recordDate with | some d => d | none => now) := by
  obtain ⟨h1, h2⟩ := h
  rw [Option.isSome_iff_exists] at h1 h2
  obtain ⟨t, ht⟩ := h1
  obtain ⟨p, hp⟩ := h2
  refine ⟨?_, ?_, ?_, ?_, ?_, ?_, ?_⟩ <;>
    simp only [parsedRecord, rowToRecord, ht, hp, Option.getD_some] <;>
    rcases hfind : cats.find? (fun c => c.id == row.categoryId) with _ | c <;>
    simp [hfind, ht]

theorem parseRows_eq_map {now : Datetime} {cats : List CategoryRow} {l : List RecordRow}
    (h : ∀ row ∈ l, RowOk row) :
    parseRows now cats l = some (l.map (parsedRecord now cats)) := by
  induction l with
  | nil => rfl
  | cons row rest ih =>
      have h1 : rowToRecord now cats row = some (parsedRecord now cats row) :=
        parsedRecord_spec now cats (h row (List.mem_cons_self row rest))
      have h2 := ih (fun r hr => h r (List.mem_cons_of_mem row hr))
      simp [parseRows, h1, h2]

theorem parseRows_length {now : Datetime} {cats : List CategoryRow} :
    ∀ {l : List RecordRow} {rs : List Record},
      parseRows now cats l = some rs → rs.length = l.length := by
  intro l
  induction l with
  | nil =>
      intro rs h
      simp only [parseRows, Option.some.injEq] at h
      rw [← h]
      rfl
  | cons row rest ih =>
      intro rs h
      simp only [parseRows] at h
      rcases h1 : rowToRecord now cats row with _ | r <;> rw [h1] at h
      · cases h
      · rcases h2 : parseRows now cats rest with _ | rs2 <;> rw [h2] at h
        · cases h
        · cases h
          simp [ih h2]

/-! ## Query characterisations on well-formed states -/

theorem get_all_records_none_eq {db : DB} {now : Datetime} (hwf : WF db) :
    RecordManager.get_all_records db none now false =
      (sortByDateDesc db.records).map (parsedRecord now db.categories) := by
  have h : ∀ row ∈ sortByDateDesc db.records, RowOk row :=
    fun row hr => hwf.2 row (mem_sortByDateDesc.mp hr)
  simp [RecordManager.get_all_records, parseRows_eq_map h]

theorem get_all_records_limit_eq {db : DB} {now : Datetime} {n : Int} (hwf : WF db)
    (hn : 1 ≤ n) :
    RecordManager.get_all_records db (some n) now false =
      ((sortByDateDesc db.records).take n.toNat).map (parsedRecord now db.categories) := by
  have h : ∀ row ∈ (sortByDateDesc db.records).take n.toNat, RowOk row :=
    fun row hr => hwf.2 row (mem_sortByDateDesc.mp (List.mem_of_mem_take hr))
  have hne : n ≠ 0 := by omega
  have hpos : 0 < n := by omega
  simp [RecordManager.get_all_records, hne, hpos, parseRows_eq_map h]

theorem rangeRows_sub {db : DB} {s e : Datetime} {rt : Option String} {row : RecordRow}
    (h : row ∈ rangeRows db s e rt) : row ∈ db.records :=
  (List.mem_filter.mp h).1

theorem get_records_by_date_range_eq {db : DB} {s e now : Datetime} {rt : Option String}
    (hwf : WF db) :
    RecordManager.get_records_by_date_range db s e rt now false =
      (sortByDateDesc (rangeRows db s e rt)).map (parsedRecord now db.categories) := by
  have h : ∀ row ∈ sortByDateDesc (rangeRows db s e rt), RowOk row :=
    fun row hr => hwf.2 row (rangeRows_sub (mem_sortByDateDesc.mp hr))
  simp [RecordManager.get_records_by_date_range, parseRows_eq_map h]

/-! ## Dictionary and aggregation lemmas -/

theorem dictSet_pair_left {a b : String} (x y v : Rat) {k : String} (hk : k = a) :
    dictSet [(a, x), (b, y)] k v = [(a, v), (b, y)] := by
  subst hk
  simp [dictSet]

theorem dictSet_pair_right {a b : String} (x y v : Rat) {k : String} (hk : k = b)
    (hab : a ≠ b) : dictSet [(a, x), (b, y)] k v = [(a, x), (b, v)] := by
  subst hk
  simp [dictSet, hab]

theorem foldl_dictSet_pair {a b : String} (hab : a ≠ b) :
    ∀ (gs : List (String × Rat)) (x y : Rat), (∀ kv ∈ gs, kv.1 = a ∨ kv.1 = b) →
      gs.foldl (fun m g => dictSet m g.1 g.2) [(a, x), (b, y)] =
        [(a, gs.foldl (fun acc g => if g.1 = a then g.2 else acc) x),
         (b, gs.foldl (fun acc g => if g.1 = b then g.2 else acc) y)] := by
  intro gs
  induction gs with
  | nil => intro x y _; rfl
  | cons g gs ih =>
      intro x y hk
      have htail : ∀ kv ∈ gs, kv.1 = a ∨ kv.1 = b :=
        fun kv hkv => hk kv (List.mem_cons_of_mem g hkv)
      rcases hk g (List.mem_cons_self g gs) with hg | hg
      · rw [List.foldl_cons, List.foldl_cons, List.foldl_cons,
          dictSet_pair_left x y g.2 hg, ih _ _ htail,
          if_pos hg, if_neg (by rw [hg]; exact hab)]
      · rw [List.foldl_cons, List.foldl_cons, List.foldl_cons,
          dictSet_pair_right x y g.2 hg hab, ih _ _ htail,
          if_neg (by rw [hg]; exact (Ne.symm hab)), if_pos hg]

theorem foldl_lastVal_map {k : String} (f : String → Rat) :
    ∀ (ts : List String) (x : Rat),
      (ts.map (fun t => (t, f t))).foldl (fun acc g => if g.1 = k then g.2 else acc) x =
        if k ∈ ts then f k else x := by
  intro ts
  induction ts with
  | nil => intro x; simp
  | cons t ts ih =>
      intro x
      simp only [List.map_cons, List.foldl_cons]
      rw [ih]
      by_cases hk : k ∈ ts
      · rw [if_pos hk, if_pos (List.mem_cons_of_mem t hk)]
      · rw [if_neg hk]
        by_cases ht : t = k
        · subst ht
          rw [if_pos rfl, if_pos (List.mem_cons_self t ts)]
        · rw [if_neg ht, if_neg (by
            intro hc
            rcases List.mem_cons.mp hc with hc | hc
            · exact ht hc.symm
            · exact hk hc)]

theorem typeSum_eq_zero {rows : List RecordRow} {k : String}
    (h : ¬ k ∈ rows.map (fun row => row.type)) : typeSum rows k = 0 := by
  unfold typeSum
  have hnil : rows.filter (fun row => row.type == k) = [] := by
    rw [List.filter_eq_nil_iff]
    intro row hrow
    simp only [beq_iff_eq]
    intro hc
    exact h (List.mem_map.mpr ⟨row, hrow, hc⟩)
  rw [hnil]
  rfl

theorem typeSum_perm {rows1 rows2 : List RecordRow} (hp : rows1.Perm rows2) (t : String) :
    typeSum rows1 t = typeSum rows2 t :=
  ((hp.filter _).map _).sum_eq

theorem sqlGroup_keys {rows : List RecordRow} (h : ∀ row ∈ rows, RowOk row) :
    ∀ kv ∈ sqlGroupByTypeSum rows, kv.1 = "收入" ∨ kv.1 = "支出" := by
  intro kv hkv
  unfold sqlGroupByTypeSum at hkv
  obtain ⟨t, ht, rfl⟩ := List.mem_map.mp hkv
  obtain ⟨row, hrow, rfl⟩ := List.mem_map.mp (List.mem_dedup.mp ht)
  exact RecordType.ofValue_mem (h row hrow).1

theorem summary_fold_eq {rows : List RecordRow} (h : ∀ row ∈ rows, RowOk row) :
    (sqlGroupByTypeSum rows).foldl (fun m g => dictSet m g.1 g.2) zeroSummary =
      [("收入", typeSum rows "收入"), ("支出", typeSum rows "支出")] := by
  have hab : ("收入" : String) ≠ "支出" := by decide
  rw [zeroSummary, foldl_dictSet_pair hab _ 0 0 (sqlGroup_keys h)]
  unfold sqlGroupByTypeSum
  rw [foldl_lastVal_map, foldl_lastVal_map]
  have c1 : (if "收入" ∈ (rows.map fun row => row.type).dedup then typeSum rows "收入" else 0) =
      typeSum rows "收入" := by
    by_cases hm : "收入" ∈ (rows.map fun row => row.type).dedup
    · rw [if_pos hm]
    · rw [if_neg hm, typeSum_eq_zero (fun hc => hm (List.mem_dedup.mpr hc))]
  have c2 : (if "支出" ∈ (rows.map fun row => row.type).dedup then typeSum rows "支出" else 0) =
      typeSum rows "支出" := by
    by_cases hm : "支出" ∈ (rows.map fun row => row.type).dedup
    · rw [if_pos hm]
    · rw [if_neg hm, typeSum_eq_zero (fun hc => hm (List.mem_dedup.mpr hc))]
  rw [c1, c2]

theorem rangeRows_type_eq {db : DB} {s e : Datetime} {rt : Option String} {row : RecordRow}
    (hact : typeFilterActive rt = true) (h : row ∈ rangeRows db s e rt) :
    row.type = rtVal rt := by
  have hc := (List.mem_filter.mp h).2
  rw [hact] at hc
  simp only [if_true, Bool.and_eq_true, beq_iff_eq] at hc
  exact hc.2

theorem get_summary_by_date_range_all {db : DB} {s e : Datetime} (hwf : WF db) :
    RecordManager.get_summary_by_date_range db s e (some "全部") false =
      [("收入", typeSum (rangeRows db s e (some "全部")) "收入"),
       ("支出", typeSum (rangeRows db s e (some "全部")) "支出")] := by
  have h : ∀ row ∈ rangeRows db s e (some "全部"), RowOk row :=
    fun row hr => hwf.2 row (rangeRows_sub hr)
  have hact : typeFilterActive (some "全部") = false := rfl
  simp only [RecordManager.get_summary_by_date_range, Bool.false_eq_true, if_false,
    hact, summary_fold_eq h]

theorem dictGet_pair_left {a b : String} (x y dflt : Rat) :
    dictGet [(a, x), (b, y)] a dflt = x := by
  simp [dictGet, List.find?_cons_of_pos]

theorem dictGet_pair_right {a b : String} (x y dflt : Rat) (hab : a ≠ b) :
    dictGet [(a, x), (b, y)] b dflt = y := by
  have h1 : ((a, x).1 == b) = false := by
    simp [hab]
  simp [dictGet, List.find?, h1]

theorem get_summary_by_date_range_narrow {db : DB} {s e : Datetime} {t : String}
    (ht : t = "收入" ∨ t = "支出") :
    RecordManager.get_summary_by_date_range db s e (some t) false =
      [(t, typeSum (rangeRows db s e (some t)) t)] := by
  have hact : typeFilterActive (some t) = true := by
    rcases ht with h | h <;> subst h <;> rfl
  have hkeys : ∀ kv ∈ sqlGroupByTypeSum (rangeRows db s e (some t)),
      kv.1 = "收入" ∨ kv.1 = "支出" := by
    intro kv hkv
    obtain ⟨u, hu, rfl⟩ := List.mem_map.mp hkv
    obtain ⟨row, hrow, rfl⟩ := List.mem_map.mp (List.mem_dedup.mp hu)
    rw [rangeRows_type_eq hact hrow]
    exact ht
  have hab : ("收入" : String) ≠ "支出" := by decide
  have hfold := foldl_dictSet_pair hab (sqlGroupByTypeSum (rangeRows db s e (some t))) 0 0 hkeys
  simp only [RecordManager.get_summary_by_date_range, Bool.false_eq_true, if_false,
    hact, if_true, zeroSummary] at hfold ⊢
  rw [hfold]
  have hrt : rtVal (some t) = t := rfl
  rw [hrt]
  unfold sqlGroupByTypeSum
  rw [foldl_lastVal_map, foldl_lastVal_map]
  rcases ht with h | h <;> subst h
  · rw [dictGet_pair_left]
    by_cases hm : "收入" ∈ ((rangeRows db s e (some "收入")).map fun row => row.type).dedup
    · rw [if_pos hm]
    · rw [if_neg hm, typeSum_eq_zero (fun hc => hm (List.mem_dedup.mpr hc))]
  · rw [dictGet_pair_right _ _ _ hab]
    by_cases hm : "支出" ∈ ((rangeRows db s e (some "支出")).map fun row => row.type).dedup
    · rw [if_pos hm]
    · rw [if_neg hm, typeSum_eq_zero (fun hc => hm (List.mem_dedup.mpr hc))]

theorem rangeRows_narrow_filter (db : DB) (s e : Datetime) (t : String)
    (hne : (t == "") = false) (hnall : (t == "全部") = false) :
    rangeRows db s e (some t) =
      (rangeRows db s e (some "全部")).filter (fun row => row.type == t) := by
  unfold rangeRows
  rw [List.filter_filter]
  apply List.filter_congr
  intro row _
  have hact : typeFilterActive (some t) = true := by
    simp [typeFilterActive, hne, hnall]
  have hall : typeFilterActive (some "全部") = false := rfl
  rw [hact, hall]
  simp only [if_true, Bool.false_eq_true, if_false, Bool.and_true, rtVal, Option.getD]
  rw [Bool.and_comm]

theorem typeSum_narrow (db : DB) (s e : Datetime) (t : String)
    (hne : (t == "") = false) (hnall : (t == "全部") = false) :
    typeSum (rangeRows db s e (some t)) t = typeSum (rangeRows db s e (some "全部")) t := by
  rw [rangeRows_narrow_filter db s e t hne hnall]
  unfold typeSum
  rw [List.filter_filter]
  congr 1
  apply congrArg
  apply List.filter_congr
  intro row _
  cases hq : row.type == t <;> simp [hq]

theorem recordSum_eq_typeSum {now : Datetime} {cats : List CategoryRow}
    {rows : List RecordRow} (h : ∀ row ∈ rows, RowOk row) (t : RecordType) :
    (((rows.map (parsedRecord now cats)).filter
        (fun r => r.record_type == t)).map (fun r => r.amount)).sum =
      typeSum rows t.value := by
  rw [List.filter_map, List.map_map]
  have hfil : rows.filter ((fun r => r.record_type == t) ∘ parsedRecord now cats) =
      rows.filter (fun row => row.type == t.value) := by
    apply List.filter_congr
    intro row hrow
    obtain ⟨_, _, _, _, hT, _, _⟩ := parsedRecord_fields now cats (h row hrow)
    simp only [Function.comp_apply]
    by_cases hq : (parsedRecord now cats row).record_type = t
    · rw [hq] at hT
      have hv := recordType_value_of_ofValue hT
      simp [hq, hv]
    · have hne : row.type ≠ t.value := by
        intro hc
        rw [hc, recordType_ofValue_value] at hT
        exact hq (Option.some.inj hT).symm
      simp [hq, hne]
  rw [hfil]
  have hmap : ∀ row ∈ rows.filter (fun row => row.type == t.value),
      ((fun r => r.amount) ∘ parsedRecord now cats) row = row.amount :=
    fun row hrow =>
      (parsedRecord_fields now cats (h row (List.mem_filter.mp hrow).1)).2.1
  rw [List.map_congr_left hmap]
  rfl

/-! ## Initialization lemmas -/

theorem hasCat_insertOrIgnore_self (db : DB) (c : CategoryRow) :
    (insertOrIgnoreCategory db c).categories.any (fun c0 => c0.id == c.id) = true := by
  unfold insertOrIgnoreCategory
  split
  · assumption
  · simp

theorem hasCat_insertOrIgnore_mono {db : DB} {i : Int}
    (h : db.categories.any (fun c0 => c0.id == i) = true) (c : CategoryRow) :
    (insertOrIgnoreCategory db c).categories.any (fun c0 => c0.id == i) = true := by
  unfold insertOrIgnoreCategory
  split
  · exact h
  · simp only [List.any_append, h, Bool.true_or]

theorem insertOrIgnore_of_hasCat {db : DB} {c : CategoryRow}
    (h : db.categories.any (fun c0 => c0.id == c.id) = true) :
    insertOrIgnoreCategory db c = db := by
  unfold insertOrIgnoreCategory
  rw [if_pos h]

theorem foldl_insertOrIgnore_hasCat_mono {i : Int} :
    ∀ (cs : List CategoryRow) (db : DB),
      db.categories.any (fun c0 => c0.id == i) = true →
      (cs.foldl insertOrIgnoreCategory db).categories.any (fun c0 => c0.id == i) = true := by
  intro cs
  induction cs with
  | nil => intro db h; exact h
  | cons c cs ih =>
      intro db h
      exact ih (insertOrIgnoreCategory db c) (hasCat_insertOrIgnore_mono h c)

theorem foldl_insertOrIgnore_mem_hasCat :
    ∀ (cs : List CategoryRow) (db : DB) (c : CategoryRow), c ∈ cs →
      (cs.foldl insertOrIgnoreCategory db).categories.any (fun c0 => c0.id == c.id) = true := by
  intro cs
  induction cs with
  | nil => intro db c h; cases h
  | cons c1 cs ih =>
      intro db c h
      rcases List.mem_cons.mp h with h | h
      · subst h
        exact foldl_insertOrIgnore_hasCat_mono cs _ (hasCat_insertOrIgnore_self db c)
      · exact ih _ c h

theorem foldl_insertOrIgnore_of_all :
    ∀ (cs : List CategoryRow) (db : DB),
      (∀ c ∈ cs, db.categories.any (fun c0 => c0.id == c.id) = true) →
      cs.foldl insertOrIgnoreCategory db = db := by
  intro cs
  induction cs with
  | nil => intro db _; rfl
  | cons c cs ih =>
      intro db h
      rw [List.foldl_cons, insertOrIgnore_of_hasCat (h c (List.mem_cons_self c cs))]
      exact ih db (fun c1 hc1 => h c1 (List.mem_cons_of_mem c hc1))

theorem insertOrIgnore_records (db : DB) (c : CategoryRow) :
    (insertOrIgnoreCategory db c).records = db.records := by
  unfold insertOrIgnoreCategory
  split <;> rfl

theorem foldl_insertOrIgnore_records :
    ∀ (cs : List CategoryRow) (db : DB), (cs.foldl insertOrIgnoreCategory db).records = db.records := by
  intro cs
  induction cs with
  | nil => intro db; rfl
  | cons c cs ih =>
      intro db
      rw [List.foldl_cons, ih, insertOrIgnore_records]

theorem insertOrIgnore_nextId (db : DB) (c : CategoryRow) :
    (insertOrIgnoreCategory db c).nextId = db.nextId := by
  unfold insertOrIgnoreCategory
  split <;> rfl

theorem parsedRecord_date_iso {db : DB} {now : Datetime} {row : RecordRow}
    (hwf : WF db) (hdates : DatesWF db) (hrow : row ∈ db.records) :
    (parsedRecord now db.categories row).record_date.isoformat = row.recordDate := by
  obtain ⟨d, hv, heq⟩ := hdates row hrow
  have hfield := (parsedRecord_fields now db.categories (hwf.2 row hrow)).2.2.2.2.2.2
  rw [heq, fromisoformat_isoformat hv] at hfield
  rw [hfield, heq]

/-! ## Claim theorems -/

/-- C1: for every record `R` with positive amount, a valid timestamp and a
category id present in the categories table, `add_record(R)` followed by
`get_all_records()` (on a well-formed state) yields a sequence containing a
record whose amount, type, category id, payment method, note and timestamp
equal `R`'s, with a store-assigned id `> 0`. -/
theorem spec_C1_add_record_then_get_all (db : DB) (r : Record) (now : Datetime)
    (hwf : WF db) (hamt : 0 < r.amount) (hv : r.record_date.validb = true)
    (hcat : ∃ c ∈ db.categories, c.id = r.category.category_id) :
    ∃ rec ∈ RecordManager.get_all_records (RecordManager.add_record db r false).1
        none now false,
      rec.amount = r.amount ∧ rec.record_type = r.record_type ∧
      rec.category.category_id = r.category.category_id ∧
      rec.payment_method = r.payment_method ∧ rec.note = r.note ∧
      rec.record_date = r.record_date ∧ 0 < rec.record_id := by
  set newRow : RecordRow :=
    ⟨db.nextId, r.amount, r.record_type.value, r.category.category_id,
      r.payment_method.value, r.note, r.record_date.isoformat⟩ with hnew
  have hdb' : (RecordManager.add_record db r false).1 =
      ⟨db.records ++ [newRow], db.categories, db.nextId + 1⟩ := rfl
  have hok : RowOk newRow := by
    constructor
    · rw [hnew]
      simp [recordType_ofValue_value]
    · rw [hnew]
      simp [paymentMethod_ofValue_value]
  have hwf' : WF ⟨db.records ++ [newRow], db.categories, db.nextId + 1⟩ := by
    constructor
    · have := hwf.1
      show (1 : Int) ≤ db.nextId + 1
      omega
    · intro row hr
      rcases List.mem_append.mp hr with hr | hr
      · exact hwf.2 row hr
      · rw [List.mem_singleton.mp hr]
        exact hok
  rw [hdb', get_all_records_none_eq hwf']
  have hmem : newRow ∈ sortByDateDesc (db.records ++ [newRow]) :=
    mem_sortByDateDesc.mpr (List.mem_append.mpr (Or.inr (List.mem_singleton.mpr rfl)))
  refine ⟨parsedRecord now db.categories newRow,
    List.mem_map.mpr ⟨newRow, hmem, rfl⟩, ?_⟩
  obtain ⟨hid, hamount, hnote, hcid, hT, hP, hD⟩ :=
    parsedRecord_fields now db.categories hok
  have hTv : (parsedRecord now db.categories newRow).record_type = r.record_type := by
    have : RecordType.ofValue r.record_type.value =
        some (parsedRecord now db.categories newRow).record_type := hT
    rw [recordType_ofValue_value] at this
    exact (Option.some.inj this).symm
  have hPv : (parsedRecord now db.categories newRow).payment_method = r.payment_method := by
    have : PaymentMethod.ofValue r.payment_method.value =
        some (parsedRecord now db.categories newRow).payment_method := hP
    rw [paymentMethod_ofValue_value] at this
    exact (Option.some.inj this).symm
  have hDv : (parsedRecord now db.categories newRow).record_date = r.record_date := by
    rw [hD]
    have : newRow.recordDate = r.record_date.isoformat := rfl
    rw [this, fromisoformat_isoformat hv]
  refine ⟨hamount, hTv, hcid, hPv, hnote, hDv, ?_⟩
  rw [hid]
  have := hwf.1
  show (0 : Int) < db.nextId
  omega

/-- C2: on well-formed states, the SQL-level `SUM/GROUP BY` range summary
with the "All" filter equals the in-memory per-type sums over the rows
returned by the range query with the same filter (the refinement
cross-check of §8 of the spec, `rowLevelSummary` being the spec-side
aggregation). -/
theorem spec_C2_summary_refines_rowsum (db : DB) (s e now : Datetime) (hwf : WF db) :
    RecordManager.get_summary_by_date_range db s e (some "全部") false =
      rowLevelSummary (RecordManager.get_records_by_date_range db s e (some "全部") now false) := by
  rw [get_summary_by_date_range_all hwf, get_records_by_date_range_eq hwf]
  unfold rowLevelSummary
  have h : ∀ row ∈ sortByDateDesc (rangeRows db s e (some "全部")), RowOk row :=
    fun row hr => hwf.2 row (rangeRows_sub (mem_sortByDateDesc.mp hr))
  have e1 := @recordSum_eq_typeSum now db.categories _ h RecordType.income
  have e2 := @recordSum_eq_typeSum now db.categories _ h RecordType.expense
  rw [e1, e2]
  have p1 := typeSum_perm (sortByDateDesc_perm (rangeRows db s e (some "全部")))
    RecordType.income.value
  have p2 := typeSum_perm (sortByDateDesc_perm (rangeRows db s e (some "全部")))
    RecordType.expense.value
  rw [p1, p2]
  rfl

/-- C3: a range summary with a specific type filter returns exactly the
one-key mapping for that type, whose value is that type's total from the
"All" summary; the "All" summary has exactly the two keys 收入 (Income)
and 支出 (Expense), and a type with no matching rows in the range gets the
value `0.0`. -/
theorem spec_C3_summary_type_narrowing (db : DB) (s e : Datetime) (hwf : WF db) :
    (RecordManager.get_summary_by_date_range db s e (some "收入") false =
      [("收入", dictGet (RecordManager.get_summary_by_date_range db s e (some "全部") false)
        "收入" 0)]) ∧
    (RecordManager.get_summary_by_date_range db s e (some "支出") false =
      [("支出", dictGet (RecordManager.get_summary_by_date_range db s e (some "全部") false)
        "支出" 0)]) ∧
    ((RecordManager.get_summary_by_date_range db s e (some "全部") false).map Prod.fst =
      ["收入", "支出"]) ∧
    ((∀ row ∈ rangeRows db s e (some "全部"), row.type ≠ "收入") →
      dictGet (RecordManager.get_summary_by_date_range db s e (some "全部") false) "收入" 0 = 0) := by
  have hab : ("收入" : String) ≠ "支出" := by decide
  rw [get_summary_by_date_range_all hwf]
  refine ⟨?_, ?_, ?_, ?_⟩
  · rw [get_summary_by_date_range_narrow (Or.inl rfl), dictGet_pair_left,
      typeSum_narrow db s e "收入" rfl rfl]
  · rw [get_summary_by_date_range_narrow (Or.inr rfl), dictGet_pair_right _ _ _ hab,
      typeSum_narrow db s e "支出" rfl rfl]
  · rfl
  · intro hno
    rw [dictGet_pair_left]
    apply typeSum_eq_zero
    intro hc
    obtain ⟨row, hrow, hty⟩ := List.mem_map.mp hc
    exact hno row hrow hty

/-- C4 fails as stated: with `limit = 0` the guard `if limit:` is false, no
`LIMIT` clause is emitted and **all** records are returned (more than 0);
and with two records sharing a timestamp the result is not *strictly*
descending. -/
theorem spec_C4_counterexample :
    ¬ ((RecordManager.get_all_records
        ⟨[⟨1, 5, "支出", 1, "现金", "", "2024-03-01T10:00:00"⟩], [], 2⟩
        (some 0) ⟨2024, 3, 2, 0, 0, 0⟩ false).length ≤ 0) ∧
    ¬ List.Pairwise
        (fun a b : Record => strLt b.record_date.isoformat a.record_date.isoformat = true)
        (RecordManager.get_all_records
          ⟨[⟨1, 5, "支出", 1, "现金", "", "2024-03-01T10:00:00"⟩,
            ⟨2, 6, "收入", 1, "微信", "", "2024-03-01T10:00:00"⟩], [], 3⟩
          none ⟨2024, 3, 2, 0, 0, 0⟩ false) := by
  constructor
  · decide
  · decide

/-- C4 amended: for every integer `N ≥ 1` and every well-formed state
(valid enum labels and isoformat timestamps), `get_all_records(limit=N)`
returns at most `N` records, ordered by timestamp non-increasingly
(descending with ties adjacent), and is a prefix of the unbounded
`get_all_records()`; for `N = 0` (Python falsy) and negative `N` (SQLite
`LIMIT` semantics) the limit is ignored. -/
theorem spec_C4_amended (db : DB) (now : Datetime) (n : Int) (hn : 1 ≤ n)
    (hwf : WF db) (hdates : DatesWF db) :
    (RecordManager.get_all_records db (some n) now false).length ≤ n.toNat ∧
    List.Pairwise
      (fun a b : Record => strLe b.record_date.isoformat a.record_date.isoformat = true)
      (RecordManager.get_all_records db (some n) now false) ∧
    RecordManager.get_all_records db (some n) now false <+:
      RecordManager.get_all_records db none now false := by
  rw [get_all_records_limit_eq hwf hn, get_all_records_none_eq hwf]
  refine ⟨?_, ?_, ?_⟩
  · rw [List.length_map]
    exact List.length_take_le _ _
  · rw [List.pairwise_map]
    have hpw : List.Pairwise (fun a b => rowDateGe a b = true)
        ((sortByDateDesc db.records).take n.toNat) :=
      List.Pairwise.sublist (List.take_sublist _ _) (sortByDateDesc_pairwise db.records)
    refine hpw.imp_of_mem ?_
    intro a b ha hb hge
    have hma : a ∈ db.records :=
      mem_sortByDateDesc.mp (List.mem_of_mem_take ha)
    have hmb : b ∈ db.records :=
      mem_sortByDateDesc.mp (List.mem_of_mem_take hb)
    rw [parsedRecord_date_iso hwf hdates hma, parsedRecord_date_iso hwf hdates hmb]
    exact hge
  · rw [List.map_take]
    exact ⟨((sortByDateDesc db.records).map (parsedRecord now db.categories)).drop n.toNat,
      List.take_append_drop _ _⟩

/-- C5: initialization is idempotent — a second `_init_database` run leaves
the categories table unchanged (present ids are not overwritten), any run
leaves the records table intact, and a first run on a fresh database seeds
exactly the ten default category rows. -/
theorem spec_C5_init_idempotent (db : DB) :
    (RecordManager._init_database (RecordManager._init_database db false) false).categories =
      (RecordManager._init_database db false).categories ∧
    (RecordManager._init_database db false).records = db.records ∧
    (RecordManager._init_database emptyDB false).categories = defaultCategories := by
  refine ⟨?_, ?_, ?_⟩
  · have hstable : RecordManager._init_database (RecordManager._init_database db false) false =
        RecordManager._init_database db false := by
      show defaultCategories.foldl insertOrIgnoreCategory
          (defaultCategories.foldl insertOrIgnoreCategory db) =
        defaultCategories.foldl insertOrIgnoreCategory db
      exact foldl_insertOrIgnore_of_all defaultCategories _
        (fun c hc => foldl_insertOrIgnore_mem_hasCat defaultCategories db c hc)
    rw [hstable]
  · show (defaultCategories.foldl insertOrIgnoreCategory db).records = db.records
    exact foldl_insertOrIgnore_records _ _
  · decide

/-- C6: the date-range filter of `get_records_by_date_range` is inclusive
at both endpoints — on a well-formed state, a stored row whose timestamp
string equals exactly `S.isoformat()` or exactly `E.isoformat()` (and which
passes the type filter, when one is active) appears in the result. -/
theorem spec_C6_range_inclusive (db : DB) (s e now : Datetime) (rt : Option String)
    (row : RecordRow) (hwf : WF db) (hrow : row ∈ db.records)
    (hb : row.recordDate = s.isoformat ∨ row.recordDate = e.isoformat)
    (hse : strLe s.isoformat e.isoformat = true)
    (htype : typeFilterActive rt = true → (row.type == rtVal rt) = true) :
    ∃ rec ∈ RecordManager.get_records_by_date_range db s e rt now false,
      rec.record_id = row.id ∧ rec.amount = row.amount := by
  rw [get_records_by_date_range_eq hwf]
  have hmem : row ∈ rangeRows db s e rt := by
    rw [rangeRows, List.mem_filter]
    refine ⟨hrow, ?_⟩
    have h1 : strLe s.isoformat row.recordDate = true := by
      rcases hb with h | h
      · rw [h]
        exact strLe_refl _
      · rw [h]
        exact hse
    have h2 : strLe row.recordDate e.isoformat = true := by
      rcases hb with h | h
      · rw [h]
        exact hse
      · rw [h]
        exact strLe_refl _
    simp only [Bool.and_eq_true]
    refine ⟨⟨h1, h2⟩, ?_⟩
    cases hact : typeFilterActive rt
    · simp [hact]
    · simp [hact, htype hact]
  refine ⟨parsedRecord now db.categories row,
    List.mem_map.mpr ⟨row, mem_sortByDateDesc.mpr hmem, rfl⟩, ?_, ?_⟩
  · exact (parsedRecord_fields now db.categories (hwf.2 row hrow)).1
  · exact (parsedRecord_fields now db.categories (hwf.2 row hrow)).2.1

/-- C7: no store operation lets an exception propagate — on the failure
path each operation returns its sentinel: `add_record` returns `false`
with the state unchanged, the two retrieval queries return the empty
sequence, the type-keyed summaries return the zero-filled
`{收入: 0.0, 支出: 0.0}` map, and the category summary returns the empty
mapping (its zero-fill, having no fixed key set). -/
theorem spec_C7_error_sentinels (db : DB) (r : Record) (s e now : Datetime)
    (rt : Option String) (lim : Option Int) :
    RecordManager.add_record db r true = (db, false) ∧
    RecordManager.get_all_records db lim now true = [] ∧
    RecordManager.get_records_by_date_range db s e rt now true = [] ∧
    RecordManager.get_summary_by_date_range db s e rt true = [("收入", 0), ("支出", 0)] ∧
    RecordManager.get_monthly_summary db now true = [("收入", 0), ("支出", 0)] ∧
    RecordManager.get_category_summary db s e rt true = [] :=
  ⟨rfl, rfl, rfl, rfl, rfl, rfl⟩

/-- C8: `get_formatted_time` computes "yesterday" as
`now.replace(day=now.day - 1)`, so whenever `now` falls on the first day
of a month and the record is not from "today", the `replace` call raises
`ValueError` (the result is `none`) instead of producing a label. -/
theorem spec_C8_day_one_raises (r : Record) (now : Datetime) (hday : now.day = 1)
    (hneq : r.record_date.dateTriple ≠ now.dateTriple) :
    r.get_formatted_time now = none := by
  unfold Record.get_formatted_time
  rw [if_neg hneq]
  have hrep : now.replaceDay ((now.day : Int) - 1) = none := by
    unfold Datetime.replaceDay
    rw [if_neg]
    intro hcon
    obtain ⟨h1, _⟩ := hcon
    rw [hday] at h1
    omega
  rw [hrep]

/-- Witness for C8 at a concrete input: `now` is 2024-03-01 (day 1) and
the stored record is from 2024-02-29. -/
theorem spec_C8_day_one_raises_witness :
    (⟨2024, 3, 1, 13, 0, 0⟩ : Datetime).day = 1 ∧
    Record.get_formatted_time
      ⟨0, 1, .expense, ⟨1, none, none, none⟩, .cash, "", ⟨2024, 2, 29, 9, 30, 0⟩⟩
      ⟨2024, 3, 1, 13, 0, 0⟩ = none :=
  ⟨rfl, spec_C8_day_one_raises _ _ rfl (by decide)⟩

/-- C9: `RecordType` and `PaymentMethod` are closed enumerations — value
lookup fails (raises, modelled as `none`) on every string outside the
fixed label sets, and returns the unique matching member on every string
inside them. -/
theorem spec_C9_enums_closed :
    (∀ s : String, s ≠ "收入" → s ≠ "支出" → RecordType.ofValue s = none) ∧
    (∀ t : RecordType, RecordType.ofValue t.value = some t) ∧
    (∀ (s : String) (t : RecordType), RecordType.ofValue s = some t → t.value = s) ∧
    (∀ s : String, s ≠ "现金" → s ≠ "微信" → s ≠ "支付宝" → s ≠ "银行卡" →
      PaymentMethod.ofValue s = none) ∧
    (∀ p : PaymentMethod, PaymentMethod.ofValue p.value = some p) ∧
    (∀ (s : String) (p : PaymentMethod), PaymentMethod.ofValue s = some p → p.value = s) := by
  refine ⟨?_, recordType_ofValue_value, fun s t => recordType_value_of_ofValue, ?_,
    paymentMethod_ofValue_value, fun s p => paymentMethod_value_of_ofValue⟩
  · intro s h1 h2
    unfold RecordType.ofValue
    rw [if_neg h1, if_neg h2]
  · intro s h1 h2 h3 h4
    unfold PaymentMethod.ofValue
    rw [if_neg h1, if_neg h2, if_neg h3, if_neg h4]

/-- Witness for C9 at concrete inputs: an out-of-set label fails lookup for
both enumerations, and in-set labels return the matching member. -/
theorem spec_C9_enums_closed_witness :
    RecordType.ofValue "Income" = none ∧
    RecordType.ofValue RecordType.income.value = some RecordType.income ∧
    PaymentMethod.ofValue "Cash" = none ∧
    PaymentMethod.ofValue PaymentMethod.wechat.value = some PaymentMethod.wechat :=
  ⟨spec_C9_enums_closed.1 "Income" (by decide) (by decide),
   spec_C9_enums_closed.2.1 RecordType.income,
   spec_C9_enums_closed.2.2.2.1 "Cash" (by decide) (by decide) (by decide) (by decide),
   spec_C9_enums_closed.2.2.2.2.1 PaymentMethod.wechat⟩

/-- C10: on the error path the summaries skip the type-filter narrowing —
`get_summary_by_date_range` returns the full two-key zero map even when a
specific type was requested, while `get_category_summary` returns the
empty (not zero-filled) mapping; a filtered success result is a one-key
map, so the error shape is distinguishable from it. -/
theorem spec_C10_error_shape (db : DB) (s e : Datetime) (rt : Option String) :
    RecordManager.get_summary_by_date_range db s e rt true = [("收入", 0), ("支出", 0)] ∧
    RecordManager.get_summary_by_date_range db s e (some "收入") true =
      [("收入", 0), ("支出", 0)] ∧
    RecordManager.get_category_summary db s e rt true = [] ∧
    (∃ v, RecordManager.get_summary_by_date_range db s e (some "收入") false = [("收入", v)]) := by
  refine ⟨rfl, rfl, rfl, ?_⟩
  exact ⟨_, get_summary_by_date_range_narrow (Or.inl rfl)⟩

/-- Witness for C1 on a concrete fresh store and record. -/
theorem spec_C1_add_record_then_get_all_witness :
    WF ⟨[], [⟨2, "购物消费", "b", "#4E"⟩], 1⟩ ∧
    (0 : Rat) < 5 ∧
    Datetime.validb ⟨2024, 3, 1, 12, 30, 5⟩ = true ∧
    (∃ c ∈ (DB.mk [] [⟨2, "购物消费", "b", "#4E"⟩] 1).categories, c.id = (2 : Int)) ∧
    (∃ rec ∈ RecordManager.get_all_records
        (RecordManager.add_record ⟨[], [⟨2, "购物消费", "b", "#4E"⟩], 1⟩
          ⟨0, 5, RecordType.expense, ⟨2, some "购物消费", some "b", some "#4E"⟩,
            PaymentMethod.alipay, "n", ⟨2024, 3, 1, 12, 30, 5⟩⟩ false).1
        none ⟨2024, 3, 2, 0, 0, 0⟩ false,
      rec.amount = 5 ∧ rec.record_type = RecordType.expense ∧
      rec.category.category_id = 2 ∧
      rec.payment_method = PaymentMethod.alipay ∧ rec.note = "n" ∧
      rec.record_date = ⟨2024, 3, 1, 12, 30, 5⟩ ∧ 0 < rec.record_id) :=
  ⟨by decide, by decide, by decide, by decide,
   spec_C1_add_record_then_get_all _ _ _ (by decide) (by decide) (by decide) (by decide)⟩

/-- Witness for C2 on a concrete store and range. -/
theorem spec_C2_summary_refines_rowsum_witness :
    WF ⟨[⟨1, 5, "支出", 2, "支付宝", "n", "2024-03-01T12:30:05"⟩],
        [⟨2, "购物消费", "b", "#4E"⟩], 2⟩ ∧
    RecordManager.get_summary_by_date_range
        ⟨[⟨1, 5, "支出", 2, "支付宝", "n", "2024-03-01T12:30:05"⟩],
          [⟨2, "购物消费", "b", "#4E"⟩], 2⟩
        ⟨2024, 3, 1, 0, 0, 0⟩ ⟨2024, 3, 2, 0, 0, 0⟩ (some "全部") false =
      rowLevelSummary (RecordManager.get_records_by_date_range
        ⟨[⟨1, 5, "支出", 2, "支付宝", "n", "2024-03-01T12:30:05"⟩],
          [⟨2, "购物消费", "b", "#4E"⟩], 2⟩
        ⟨2024, 3, 1, 0, 0, 0⟩ ⟨2024, 3, 2, 0, 0, 0⟩ (some "全部")
        ⟨2024, 3, 2, 0, 0, 0⟩ false) :=
  ⟨by decide, spec_C2_summary_refines_rowsum _ _ _ _ (by decide)⟩

/-- Witness for C3 on a concrete store and range. -/
theorem spec_C3_summary_type_narrowing_witness :
    WF ⟨[⟨1, 5, "支出", 2, "支付宝", "n", "2024-03-01T12:30:05"⟩],
        [⟨2, "购物消费", "b", "#4E"⟩], 2⟩ ∧
    ((RecordManager.get_summary_by_date_range
        ⟨[⟨1, 5, "支出", 2, "支付宝", "n", "2024-03-01T12:30:05"⟩],
          [⟨2, "购物消费", "b", "#4E"⟩], 2⟩
        ⟨2024, 3, 1, 0, 0, 0⟩ ⟨2024, 3, 2, 0, 0, 0⟩ (some "收入") false =
      [("收入", dictGet (RecordManager.get_summary_by_date_range
          ⟨[⟨1, 5, "支出", 2, "支付宝", "n", "2024-03-01T12:30:05"⟩],
            [⟨2, "购物消费", "b", "#4E"⟩], 2⟩
          ⟨2024, 3, 1, 0, 0, 0⟩ ⟨2024, 3, 2, 0, 0, 0⟩ (some "全部") false) "收入" 0)]) ∧
    (RecordManager.get_summary_by_date_range
        ⟨[⟨1, 5, "支出", 2, "支付宝", "n", "2024-03-01T12:30:05"⟩],
          [⟨2, "购物消费", "b", "#4E"⟩], 2⟩
        ⟨2024, 3, 1, 0, 0, 0⟩ ⟨2024, 3, 2, 0, 0, 0⟩ (some "支出") false =
      [("支出", dictGet (RecordManager.get_summary_by_date_range
          ⟨[⟨1, 5, "支出", 2, "支付宝", "n", "2024-03-01T12:30:05"⟩],
            [⟨2, "购物消费", "b", "#4E"⟩], 2⟩
          ⟨2024, 3, 1, 0, 0, 0⟩ ⟨2024, 3, 2, 0, 0, 0⟩ (some "全部") false) "支出" 0)]) ∧
    ((RecordManager.get_summary_by_date_range
        ⟨[⟨1, 5, "支出", 2, "支付宝", "n", "2024-03-01T12:30:05"⟩],
          [⟨2, "购物消费", "b", "#4E"⟩], 2⟩
        ⟨2024, 3, 1, 0, 0, 0⟩ ⟨2024, 3, 2, 0, 0, 0⟩ (some "全部") false).map Prod.fst =
      ["收入", "支出"]) ∧
    ((∀ row ∈ rangeRows
        ⟨[⟨1, 5, "支出", 2, "支付宝", "n", "2024-03-01T12:30:05"⟩],
          [⟨2, "购物消费", "b", "#4E"⟩], 2⟩
        ⟨2024, 3, 1, 0, 0, 0⟩ ⟨2024, 3, 2, 0, 0, 0⟩ (some "全部"), row.type ≠ "收入") →
      dictGet (RecordManager.get_summary_by_date_range
        ⟨[⟨1, 5, "支出", 2, "支付宝", "n", "2024-03-01T12:30:05"⟩],
          [⟨2, "购物消费", "b", "#4E"⟩], 2⟩
        ⟨2024, 3, 1, 0, 0, 0⟩ ⟨2024, 3, 2, 0, 0, 0⟩ (some "全部") false) "收入" 0 = 0)) :=
  ⟨by decide, spec_C3_summary_type_narrowing _ _ _ (by decide)⟩

/-- Witness for C4 (amended) on a concrete store with `N = 1`. -/
theorem spec_C4_amended_witness :
    (1 : Int) ≤ 1 ∧
    WF ⟨[⟨1, 5, "支出", 2, "支付宝", "n", "2024-03-01T12:30:05"⟩], [], 2⟩ ∧
    DatesWF ⟨[⟨1, 5, "支出", 2, "支付宝", "n", "2024-03-01T12:30:05"⟩], [], 2⟩ ∧
    ((RecordManager.get_all_records
        ⟨[⟨1, 5, "支出", 2, "支付宝", "n", "2024-03-01T12:30:05"⟩], [], 2⟩
        (some 1) ⟨2024, 3, 2, 0, 0, 0⟩ false).length ≤ (1 : Int).toNat ∧
     List.Pairwise
       (fun a b : Record => strLe b.record_date.isoformat a.record_date.isoformat = true)
       (RecordManager.get_all_records
         ⟨[⟨1, 5, "支出", 2, "支付宝", "n", "2024-03-01T12:30:05"⟩], [], 2⟩
         (some 1) ⟨2024, 3, 2, 0, 0, 0⟩ false) ∧
     RecordManager.get_all_records
         ⟨[⟨1, 5, "支出", 2, "支付宝", "n", "2024-03-01T12:30:05"⟩], [], 2⟩
         (some 1) ⟨2024, 3, 2, 0, 0, 0⟩ false <+:
       RecordManager.get_all_records
         ⟨[⟨1, 5, "支出", 2, "支付宝", "n", "2024-03-01T12:30:05"⟩], [], 2⟩
         none ⟨2024, 3, 2, 0, 0, 0⟩ false) := by
  have hdw : DatesWF ⟨[⟨1, 5, "支出", 2, "支付宝", "n", "2024-03-01T12:30:05"⟩], [], 2⟩ := by
    intro row hrow
    have hrow2 : row ∈ [(⟨1, 5, "支出", 2, "支付宝", "n", "2024-03-01T12:30:05"⟩ : RecordRow)] :=
      hrow
    rw [List.mem_singleton] at hrow2
    subst hrow2
    exact ⟨⟨2024, 3, 1, 12, 30, 5⟩, by decide, by decide⟩
  exact ⟨by decide, by decide, hdw,
    spec_C4_amended _ ⟨2024, 3, 2, 0, 0, 0⟩ 1 (by decide) (by decide) hdw⟩

/-- Witness for C6 on a concrete store whose single row sits exactly on the
start endpoint of the queried range. -/
theorem spec_C6_range_inclusive_witness :
    WF ⟨[⟨1, 5, "支出", 2, "支付宝", "n", "2024-03-01T12:30:05"⟩], [], 2⟩ ∧
    (⟨1, 5, "支出", 2, "支付宝", "n", "2024-03-01T12:30:05"⟩ : RecordRow) ∈
      (DB.mk [⟨1, 5, "支出", 2, "支付宝", "n", "2024-03-01T12:30:05"⟩] [] 2).records ∧
    ((⟨1, 5, "支出", 2, "支付宝", "n", "2024-03-01T12:30:05"⟩ : RecordRow).recordDate =
        Datetime.isoformat ⟨2024, 3, 1, 12, 30, 5⟩ ∨
      (⟨1, 5, "支出", 2, "支付宝", "n", "2024-03-01T12:30:05"⟩ : RecordRow).recordDate =
        Datetime.isoformat ⟨2024, 3, 2, 0, 0, 0⟩) ∧
    strLe (Datetime.isoformat ⟨2024, 3, 1, 12, 30, 5⟩)
      (Datetime.isoformat ⟨2024, 3, 2, 0, 0, 0⟩) = true ∧
    (∃ rec ∈ RecordManager.get_records_by_date_range
        ⟨[⟨1, 5, "支出", 2, "支付宝", "n", "2024-03-01T12:30:05"⟩], [], 2⟩
        ⟨2024, 3, 1, 12, 30, 5⟩ ⟨2024, 3, 2, 0, 0, 0⟩ none ⟨2024, 3, 2, 0, 0, 0⟩ false,
      rec.record_id = 1 ∧ rec.amount = 5) :=
  ⟨by decide, by decide, Or.inl (by decide), by decide,
   spec_C6_range_inclusive
     ⟨[⟨1, 5, "支出", 2, "支付宝", "n", "2024-03-01T12:30:05"⟩], [], 2⟩
     ⟨2024, 3, 1, 12, 30, 5⟩ ⟨2024, 3, 2, 0, 0, 0⟩ ⟨2024, 3, 2, 0, 0, 0⟩ none
     ⟨1, 5, "支出", 2, "支付宝", "n", "2024-03-01T12:30:05"⟩
     (by decide) (by decide) (Or.inl (by decide)) (by decide)
     (fun h => Bool.noConfusion h)⟩
